import Mathlib

/-!
Verification of the chunking / storage / vector-index core of the
LLM-Augmented-Policy-Analysis-Framework repository, shallowly embedded in Lean.

Conventions used throughout:
* Python text is modelled as `List Char`; offsets are character offsets (`Nat`).
* Python `int` parameters that the code compares against 0 are modelled as `Int`
  at construction time; validated configurations carry `Nat` fields.
* Python exceptions are modelled with `Except String`; a loop that may fail to
  terminate is modelled with explicit fuel returning `Option`.
* `uuid.uuid4()` is modelled as an oracle `Nat → String` giving the id returned
  by the k-th uuid4 call of a run.
-/

/-- Association-list lookup, modelling Python `dict.get`. -/
def getKey? {β : Type} (k : String) : List (String × β) → Option β
  | [] => none
  | (k', v) :: rest => if k' = k then some v else getKey? k rest

/-- Association-list update, modelling Python `d[k] = v` (replace or append). -/
def setKey {β : Type} (k : String) (v : β) : List (String × β) → List (String × β)
  | [] => [(k, v)]
  | (k', v') :: rest => if k' = k then (k, v) :: rest else (k', v') :: setKey k v rest

/-- Association-list removal, modelling deletion of a key. -/
def removeKey {β : Type} (k : String) : List (String × β) → List (String × β)
  | [] => []
  | (k', v') :: rest => if k' = k then removeKey k rest else (k', v') :: removeKey k rest

theorem getKey?_setKey {β : Type} (k : String) (v : β) (l : List (String × β)) :
    getKey? k (setKey k v l) = some v := by
  induction l with
  | nil => simp [setKey, getKey?]
  | cons hd tl ih =>
    obtain ⟨k', v'⟩ := hd
    by_cases h : k' = k <;> simp [setKey, getKey?, h, ih]

theorem getKey?_removeKey {β : Type} (k : String) (l : List (String × β)) :
    getKey? k (removeKey k l) = none := by
  induction l with
  | nil => simp [removeKey, getKey?]
  | cons hd tl ih =>
    obtain ⟨k', v'⟩ := hd
    by_cases h : k' = k <;> simp [removeKey, getKey?, h, ih]

/-- Python slice `text[start:end]` for character lists. -/
def pySlice (text : List Char) (start stop : Nat) : List Char :=
  (text.drop start).take (stop - start)

namespace DocumentChunker

/-- Validated state of a `DocumentChunker` after `__init__`: the (possibly
clamped) configuration plus whether the clamping warning was logged. -/
structure Cfg where
  chunk_size : Int
  chunk_overlap : Int
  warned : Bool
  deriving Repr, DecidableEq

/-- Embedding of `DocumentChunker.__init__` (document_chunker.py lines 14-48):
clamps `chunk_overlap` to 0 with a warning when it is `>= chunk_size`, accepts
the methods `simple` and `recursive_char`, and raises for any other method.
It performs no validation of `chunk_size` itself. -/
def init (chunk_size chunk_overlap : Int) (method : String) : Except String Cfg :=
  if method = "recursive_char" ∨ method = "simple" then
    .ok ⟨chunk_size,
         if chunk_overlap ≥ chunk_size then 0 else chunk_overlap,
         decide (chunk_overlap ≥ chunk_size)⟩
  else
    .error ("Unsupported chunking method: " ++ method)

/-- One iteration of the `while start_index < text_len` loop of
`DocumentChunker._simple_chunking` (lines 95-111), computing the next value of
`start_index`.  `start + size - overlap` is computed in `Nat`; this agrees with
the Python `int` computation because a negative Python value and a truncated
`Nat` value both satisfy `next_start <= start_index` and both are then replaced by
the forced advance `start_index + chunk_size`. -/
def nextStart (size overlap start : Nat) : Nat :=
  if start + size - overlap ≤ start then start + size else start + size - overlap

/-- Fueled embedding of the `_simple_chunking` loop, returning the list of
`(start_index, end_index)` ranges of the appended chunks.  `none` means the
fuel was exhausted while the loop guard still held, i.e. the Python loop would
still be running.  The safety break at line 109 fires only when
`start_index >= text_len`, where the loop guard already exits, so it does not
alter the emitted chunks. -/
def scGo (textLen size overlap : Nat) : Nat → Nat → Option (List (Nat × Nat))
  | 0, start => if start < textLen then none else some []
  | fuel + 1, start =>
    if start < textLen then
      let endIdx := min (start + size) textLen
      (scGo textLen size overlap fuel (nextStart size overlap start)).map
        (fun rest => (start, endIdx) :: rest)
    else
      some []

/-- The `(start_index, end_index)` ranges produced by
`DocumentChunker._simple_chunking`, run with fuel `textLen` (sufficient whenever
`chunk_size ≥ 1`). -/
def simpleChunkingRanges (textLen size overlap : Nat) : Option (List (Nat × Nat)) :=
  scGo textLen size overlap textLen 0

/-- Embedding of `DocumentChunker._simple_chunking` (lines 89-112): the chunk
strings `text[start_index:end_index]` appended by the loop. -/
def simpleChunking (size overlap : Nat) (text : List Char) : Option (List (List Char)) :=
  (simpleChunkingRanges text.length size overlap).map
    (List.map (fun p => pySlice text p.1 p.2))

/-- Embedding of `DocumentChunker.split_text` (lines 50-87) for the `simple`
method: texts no longer than `chunk_size` are returned as a single chunk,
longer texts go through `_simple_chunking`.  `none` marks the diverging case
(the Python loop never terminating); exceptions cannot arise in the model, so
the `except: return []` branch is not reachable. -/
def split_text (cfg : Cfg) (text : List Char) : Option (List (List Char)) :=
  if (text.length : Int) ≤ cfg.chunk_size then
    some [text]
  else
    simpleChunking cfg.chunk_size.toNat cfg.chunk_overlap.toNat text

/-- Closed form of the chunking loop for a validated configuration
(`overlap < size`): the `(start, end)` ranges emitted from `start` on.  With
`overlap < size` the forced advance of `_simple_chunking` never fires and both
chunkers advance by `size - overlap` each iteration. -/
def ranges (textLen size overlap : Nat) (start : Nat) : List (Nat × Nat) :=
  if _h : start < textLen ∧ overlap < size then
    (start, min (start + size) textLen) :: ranges textLen size overlap (start + (size - overlap))
  else
    []
termination_by textLen - start
decreasing_by omega

theorem nextStart_eq_of_lt {size overlap : Nat} (h : overlap < size) (start : Nat) :
    nextStart size overlap start = start + (size - overlap) := by
  unfold nextStart
  split <;> omega

theorem scGo_eq_ranges {size overlap : Nat} (h : overlap < size) :
    ∀ (fuel : Nat) (textLen start : Nat), textLen - start ≤ fuel →
      scGo textLen size overlap fuel start = some (ranges textLen size overlap start) := by
  intro fuel
  induction fuel with
  | zero =>
    intro textLen start hf
    rw [ranges]
    have : ¬ start < textLen := by omega
    simp [scGo, this]
  | succ n ih =>
    intro textLen start hf
    by_cases hs : start < textLen
    · rw [ranges]
      have hrec := ih textLen (start + (size - overlap)) (by omega)
      simp only [scGo, hs, if_pos, nextStart_eq_of_lt h, hrec, Option.map_some']
      simp [hs, h]
    · rw [ranges]
      simp [scGo, hs, fun (hc : start < textLen ∧ overlap < size) => hs hc.1]

theorem scGo_isSome {size : Nat} (hk : 1 ≤ size) (overlap : Nat) :
    ∀ (fuel : Nat) (textLen start : Nat), textLen - start ≤ fuel →
      (scGo textLen size overlap fuel start).isSome = true := by
  intro fuel
  induction fuel with
  | zero =>
    intro textLen start hf
    have : ¬ start < textLen := by omega
    simp [scGo, this]
  | succ n ih =>
    intro textLen start hf
    by_cases hs : start < textLen
    · have hadv : start + 1 ≤ nextStart size overlap start := by
        unfold nextStart
        split <;> omega
      have hrec := ih textLen (nextStart size overlap start) (by omega)
      simp only [scGo, hs, if_pos, Option.isSome_map']
      exact hrec
    · simp [scGo, hs]

theorem ranges_mem {textLen size overlap : Nat} :
    ∀ (start : Nat) (p : Nat × Nat), p ∈ ranges textLen size overlap start →
      start ≤ p.1 ∧ p.1 < textLen ∧ p.2 = min (p.1 + size) textLen := by
  refine ranges.induct textLen size overlap
    (fun start => ∀ (p : Nat × Nat), p ∈ ranges textLen size overlap start →
      start ≤ p.1 ∧ p.1 < textLen ∧ p.2 = min (p.1 + size) textLen) ?_ ?_
  · intro s h ih p hp
    rw [ranges, dif_pos h] at hp
    rcases List.mem_cons.mp hp with rfl | hp
    · exact ⟨le_refl _, h.1, rfl⟩
    · obtain ⟨h1, h2, h3⟩ := ih p hp
      exact ⟨by omega, h2, h3⟩
  · intro s h p hp
    rw [ranges, dif_neg h] at hp
    simp at hp

theorem ranges_coverage {textLen size overlap : Nat} (hVK : overlap < size) :
    ∀ (start : Nat), ∀ x, start ≤ x → x < textLen →
      ∃ p ∈ ranges textLen size overlap start, p.1 ≤ x ∧ x < p.2 := by
  refine ranges.induct textLen size overlap
    (fun start => ∀ x, start ≤ x → x < textLen →
      ∃ p ∈ ranges textLen size overlap start, p.1 ≤ x ∧ x < p.2) ?_ ?_
  · intro s h ih x hx1 hx2
    rw [ranges, dif_pos h]
    by_cases hlt : x < min (s + size) textLen
    · exact ⟨(s, min (s + size) textLen), List.mem_cons_self _ _, hx1, hlt⟩
    · obtain ⟨p, hmem, hp⟩ := ih x (by omega) hx2
      exact ⟨p, List.mem_cons_of_mem _ hmem, hp⟩
  · intro s h x hx1 hx2
    exact absurd ⟨by omega, hVK⟩ h

theorem ranges_get?_zero {textLen size overlap s : Nat} {q : Nat × Nat}
    (h : (ranges textLen size overlap s).get? 0 = some q) : q.1 = s := by
  rw [ranges] at h
  split at h
  · simp only [List.get?_cons_zero, Option.some.injEq] at h
    subst h
    rfl
  · simp at h

theorem ranges_adjacent {textLen size overlap : Nat} :
    ∀ (start i : Nat) (p q : Nat × Nat),
      (ranges textLen size overlap start).get? i = some p →
      (ranges textLen size overlap start).get? (i + 1) = some q →
      q.1 = p.1 + (size - overlap) := by
  refine ranges.induct textLen size overlap
    (fun start => ∀ (i : Nat) (p q : Nat × Nat),
      (ranges textLen size overlap start).get? i = some p →
      (ranges textLen size overlap start).get? (i + 1) = some q →
      q.1 = p.1 + (size - overlap)) ?_ ?_
  · intro s h ih i p q hp hq
    rw [ranges, dif_pos h] at hp hq
    match i with
    | 0 =>
      simp only [List.get?_cons_zero, Option.some.injEq] at hp
      simp only [List.get?_cons_succ] at hq
      subst hp
      rw [ranges_get?_zero hq]
    | i + 1 =>
      simp only [List.get?_cons_succ] at hp hq
      exact ih i p q hp hq
  · intro s h i p q hp hq
    rw [ranges, dif_neg h] at hp
    simp at hp

theorem ranges_eq_nil_iff {textLen size overlap s : Nat} :
    ranges textLen size overlap s = [] ↔ ¬(s < textLen ∧ overlap < size) := by
  rw [ranges]
  split <;> simp_all

end DocumentChunker

/-- Formalisation of the spec sentence "for all consecutive segment pairs
except the last, `segment[i].end_offset - segment[i+1].start_offset ==
chunk_overlap`": checks every adjacent pair whose first member is not the
second-to-last element. -/
def overlapPairsExceptLastOK (overlap : Nat) : List (Nat × Nat) → Bool
  | p :: q :: r :: rest => decide (p.2 - q.1 = overlap) && overlapPairsExceptLastOK overlap (q :: r :: rest)
  | _ => true

/-- Formalisation of "the split stops as soon as a segment's end reaches
`len(content)`": no segment other than the final one may have its end offset
at the end of the content. -/
def stopsAtFirstEnd (textLen : Nat) : List (Nat × Nat) → Bool
  | p :: q :: rest => decide (p.2 ≠ textLen) && stopsAtFirstEnd textLen (q :: rest)
  | _ => true

/-- Number of emitted segments that contain the final character of the
content; the spec demands this be at most 1 ("the final portion of the content
is never emitted more than once"). -/
def tailSegmentCount (textLen : Nat) (r : List (Nat × Nat)) : Nat :=
  r.countP (fun p => decide (p.1 ≤ textLen - 1 ∧ textLen - 1 < p.2))

/-- C8: for every input string and configuration with positive `chunk_size`,
`_simple_chunking` terminates — fuel equal to the text length always
suffices, for every overlap value, because the forced advance moves the
window by `chunk_size` whenever the overlap-based advance would not move it. -/
theorem simpleChunking_terminates (size overlap : Nat) (text : List Char)
    (hk : 1 ≤ size) :
    (DocumentChunker.simpleChunking size overlap text).isSome = true := by
  unfold DocumentChunker.simpleChunking DocumentChunker.simpleChunkingRanges
  rw [Option.isSome_map']
  exact DocumentChunker.scGo_isSome hk overlap text.length text.length 0 (by omega)

/-- Witness for C8 at `chunk_size = 8`, `chunk_overlap = 20` (an overlap the
clamping would normally prevent) on a ten-character text. -/
theorem simpleChunking_terminates_witness :
    (DocumentChunker.simpleChunking 8 20 ("0123456789".data)).isSome = true :=
  simpleChunking_terminates 8 20 ("0123456789".data) (by decide)

/-- C9: for a non-empty text and a chunker with `chunk_size ≥ 1` and effective
overlap below `chunk_size`, every chunk returned by `split_text` is non-empty
and no longer than `chunk_size`. -/
theorem split_text_chunk_bounds (size overlap : Nat) (warned : Bool)
    (text : List Char) (cs : List (List Char))
    (hk : 1 ≤ size) (hvk : overlap < size) (hne : text ≠ [])
    (hsplit : DocumentChunker.split_text ⟨(size : Int), (overlap : Int), warned⟩ text = some cs) :
    ∀ c ∈ cs, c ≠ [] ∧ c.length ≤ size := by
  unfold DocumentChunker.split_text at hsplit
  by_cases hle : (text.length : Int) ≤ ((size : Int))
  · rw [if_pos hle] at hsplit
    cases hsplit
    intro c hc
    rcases List.mem_singleton.mp hc with rfl
    refine ⟨hne, ?_⟩
    exact_mod_cast hle
  · rw [if_neg hle] at hsplit
    have hlen : size < text.length := by
      have : ¬ ((text.length : Int) ≤ (size : Int)) := hle
      omega
    unfold DocumentChunker.simpleChunking DocumentChunker.simpleChunkingRanges at hsplit
    simp only [Int.toNat_natCast] at hsplit
    rw [DocumentChunker.scGo_eq_ranges hvk text.length text.length 0 (by omega)] at hsplit
    simp only [Option.map_some', Option.some.injEq] at hsplit
    subst hsplit
    intro c hc
    obtain ⟨p, hmem, hpc⟩ := List.mem_map.mp hc
    obtain ⟨h1, h2, h3⟩ := DocumentChunker.ranges_mem 0 p hmem
    subst hpc
    unfold pySlice
    constructor
    · intro hnil
      have := congrArg List.length hnil
      simp only [List.length_take, List.length_drop, List.length_nil] at this
      omega
    · simp only [List.length_take, List.length_drop]
      omega

/-- C2 counterexample: a document of length 10 with the valid configuration
`chunk_size = 8`, `chunk_overlap = 5` produces ranges
`[0,8) [3,10) [6,10) [9,10)`: the pair `([3,10),[6,10))` does not involve the
last segment yet violates `end[i] - start[i+1] = chunk_overlap` (10 - 6 = 4),
the split does not stop at the first segment whose end reaches the content
length, and the final character is contained in three segments. -/
theorem simpleChunking_overlap_violation :
    DocumentChunker.simpleChunkingRanges 10 8 5 = some [(0, 8), (3, 10), (6, 10), (9, 10)] ∧
    overlapPairsExceptLastOK 5 [(0, 8), (3, 10), (6, 10), (9, 10)] = false ∧
    stopsAtFirstEnd 10 [(0, 8), (3, 10), (6, 10), (9, 10)] = false ∧
    tailSegmentCount 10 [(0, 8), (3, 10), (6, 10), (9, 10)] = 3 := by
  refine ⟨?_, ?_, ?_, ?_⟩ <;> decide

/-- C2 amended: for every valid configuration the window advances by exactly
`chunk_size - chunk_overlap` between consecutive segments, and the overlap
identity `end[i] - start[i+1] = chunk_overlap` holds for every consecutive
pair whose earlier segment still ends before the end of the content
(equivalently, whose window fits inside it); the loop stops only when the
start index reaches the content length, so segments after the first one whose
end reaches the content length repeat the final portion. -/
theorem simpleChunking_overlap_structure (textLen size overlap : Nat)
    (i : Nat) (p q : Nat × Nat) (r : List (Nat × Nat))
    (hvk : overlap < size)
    (hr : DocumentChunker.simpleChunkingRanges textLen size overlap = some r)
    (hp : r.get? i = some p) (hq : r.get? (i + 1) = some q) :
    q.1 = p.1 + (size - overlap) ∧
    (p.2 < textLen → p.2 - q.1 = overlap) ∧
    (p.1 + size ≤ textLen → p.2 - q.1 = overlap) := by
  unfold DocumentChunker.simpleChunkingRanges at hr
  rw [DocumentChunker.scGo_eq_ranges hvk textLen textLen 0 (by omega)] at hr
  cases hr
  have hadj := DocumentChunker.ranges_adjacent 0 i p q hp hq
  obtain ⟨hp1, hp2, hp3⟩ := DocumentChunker.ranges_mem 0 p (List.get?_mem hp)
  refine ⟨hadj, ?_, ?_⟩ <;> intro hcase <;> omega

/-- Witness for C2 (amended) on the spec's own worked example: length 25,
`chunk_size = 10`, `chunk_overlap = 3`, first pair `([0,10),[7,17))`. -/
theorem simpleChunking_overlap_structure_witness :
    (7, 17).1 = (0, 10).1 + (10 - 3) ∧
    ((0, 10).2 < 25 → (0, 10).2 - (7, 17).1 = 3) ∧
    ((0, 10).1 + 10 ≤ 25 → (0, 10).2 - (7, 17).1 = 3) :=
  simpleChunking_overlap_structure 25 10 3 0 (0, 10) (7, 17)
    [(0, 10), (7, 17), (14, 24), (21, 25)]
    (by decide) (by decide) (by decide) (by decide)

/-- Witness for C9 on a ten-character text with `chunk_size = 4`,
`chunk_overlap = 1`. -/
theorem split_text_chunk_bounds_witness :
    "0123".data ≠ [] ∧ "0123".data.length ≤ 4 :=
  split_text_chunk_bounds 4 1 false ("0123456789".data)
    ["0123".data, "3456".data, "6789".data, "9".data]
    (by decide) (by decide) (by decide) (by decide)
    ("0123".data) (by decide)

/-- Metadata values occurring in `Document.metadata`. -/
inductive MVal where
  | mStr : String → MVal
  | mNat : Nat → MVal
  deriving Repr, DecidableEq

/-- Embedding of the pydantic `Document` model (src/models/document.py lines
10-20).  The `id` field defaults to `str(uuid.uuid4())`; uuid4 values are
supplied by the caller as an oracle, so a `Document` here always carries the
id it ended up with. -/
structure Document where
  id : String
  content : List Char
  metadata : List (String × MVal)
  source : Option String
  tags : List String
  deriving Repr, DecidableEq

/-- Python `document.source or "unknown"`: `None` and the empty string are
falsy. -/
def pySourceOr (source : Option String) : String :=
  match source with
  | none => "unknown"
  | some s => if s = "" then "unknown" else s

namespace CharacterSplitter

/-- Validated configuration of a `CharacterSplitter`. -/
structure Cfg where
  chunk_size : Nat
  chunk_overlap : Nat
  deriving Repr, DecidableEq

/-- Embedding of `CharacterSplitter.__init__` (document_splitter.py lines
69-83): raises `ValueError` for non-positive `chunk_size`, negative
`chunk_overlap`, or `chunk_overlap >= chunk_size`. -/
def init (chunk_size chunk_overlap : Int) : Except String Cfg :=
  if chunk_size ≤ 0 then
    .error "chunk_size must be a positive integer."
  else if chunk_overlap < 0 then
    .error "chunk_overlap must be a non-negative integer."
  else if chunk_overlap ≥ chunk_size then
    .error "chunk_overlap must be smaller than chunk_size."
  else
    .ok ⟨chunk_size.toNat, chunk_overlap.toNat⟩

/-- Fueled embedding of the `while start_index < len(content)` loop of
`CharacterSplitter.split_document` (lines 95-129), recording
`(chunk_seq, start_index, end_index)` for each appended chunk.  The
post-advance edge-case `break` (line 122) and the `start_index = end_index`
re-advance (line 129) of the source are both included literally; for a
validated configuration they are dead code (proved below). -/
def csGo (textLen size overlap : Nat) : Nat → Nat → Nat → Option (List (Nat × Nat × Nat))
  | 0, start, _ => if start < textLen then none else some []
  | fuel + 1, start, seq =>
    if start < textLen then
      if start + size - overlap ≥ textLen ∧ min (start + size) textLen < textLen then
        some [(seq, start, min (start + size) textLen)]
      else
        (csGo textLen size overlap fuel
          (if start + size - overlap ≥ min (start + size) textLen ∧
              min (start + size) textLen < textLen
           then min (start + size) textLen
           else start + size - overlap) (seq + 1)).map
          (fun rest => (seq, start, min (start + size) textLen) :: rest)
    else
      some []

/-- Embedding of the construction of one chunk `Document` (lines 99-114):
the parent metadata plus the four lineage fields set in source order, a fresh
uuid4 id, the `_chunk_<seq>` source suffix, and a copy of the tags. -/
def buildChunk (idSupply : Nat → String) (doc : Document) (t : Nat × Nat × Nat) : Document :=
  { id := idSupply t.1
    content := pySlice doc.content t.2.1 t.2.2
    metadata :=
      setKey "chunk_end_index" (MVal.mNat t.2.2)
        (setKey "chunk_start_index" (MVal.mNat t.2.1)
          (setKey "chunk_sequence" (MVal.mNat t.1)
            (setKey "original_doc_id" (MVal.mStr doc.id) doc.metadata)))
    source := some (pySourceOr doc.source ++ "_chunk_" ++ toString t.1)
    tags := doc.tags }

/-- Embedding of `CharacterSplitter.split_document` (lines 85-132):
empty content returns no chunks, otherwise the loop emits one `Document` per
`(seq, start, end)` triple.  The loop is run with fuel `len(content)`,
sufficient for every validated configuration. -/
def split_document (idSupply : Nat → String) (cfg : Cfg) (doc : Document) :
    Option (List Document) :=
  if doc.content = [] then
    some []
  else
    (csGo doc.content.length cfg.chunk_size cfg.chunk_overlap doc.content.length 0 0).map
      (List.map (buildChunk idSupply doc))

end CharacterSplitter

/-- The sequence numbering of the closed-form ranges, mirroring `chunk_seq`. -/
def withSeq : Nat → List (Nat × Nat) → List (Nat × Nat × Nat)
  | _, [] => []
  | seq, p :: rest => (seq, p.1, p.2) :: withSeq (seq + 1) rest

theorem csGo_eq_ranges {size overlap : Nat} (h : overlap < size) :
    ∀ (fuel : Nat) (textLen start seq : Nat), textLen - start ≤ fuel →
      CharacterSplitter.csGo textLen size overlap fuel start seq =
        some (withSeq seq (DocumentChunker.ranges textLen size overlap start)) := by
  intro fuel
  induction fuel with
  | zero =>
    intro textLen start seq hf
    have hns : ¬ start < textLen := by omega
    rw [DocumentChunker.ranges]
    simp [CharacterSplitter.csGo, hns, fun (hc : start < textLen ∧ overlap < size) => hns hc.1,
      withSeq]
  | succ n ih =>
    intro textLen start seq hf
    by_cases hs : start < textLen
    · have hbreak : ¬ (start + size - overlap ≥ textLen ∧ min (start + size) textLen < textLen) := by
        omega
      have hadv : (if start + size - overlap ≥ min (start + size) textLen ∧
              min (start + size) textLen < textLen
           then min (start + size) textLen
           else start + size - overlap) = start + (size - overlap) := by
        split <;> omega
      have hrec := ih textLen (start + (size - overlap)) (seq + 1) (by omega)
      rw [DocumentChunker.ranges, dif_pos ⟨hs, h⟩]
      simp only [CharacterSplitter.csGo, hs, if_pos, if_neg hbreak, hadv, hrec,
        Option.map_some']
      simp [withSeq]
    · rw [DocumentChunker.ranges]
      simp [CharacterSplitter.csGo, hs, fun (hc : start < textLen ∧ overlap < size) => hs hc.1,
        withSeq]

theorem withSeq_mem : ∀ (l : List (Nat × Nat)) (seq : Nat) (q : Nat × Nat × Nat),
    q ∈ withSeq seq l → (q.2.1, q.2.2) ∈ l
  | [], _, q, hq => by simp [withSeq] at hq
  | p :: rest, seq, q, hq => by
    rcases List.mem_cons.mp hq with rfl | hq
    · exact List.mem_cons_self _ _
    · exact List.mem_cons_of_mem _ (withSeq_mem rest (seq + 1) q hq)

theorem withSeq_mem_of_mem : ∀ (l : List (Nat × Nat)) (p : Nat × Nat), p ∈ l →
    ∀ seq : Nat, ∃ i : Nat, (i, p.1, p.2) ∈ withSeq seq l
  | [], p, hp, _ => by simp at hp
  | hd :: rest, p, hp, seq => by
    rcases List.mem_cons.mp hp with rfl | hp
    · exact ⟨seq, List.mem_cons_self _ _⟩
    · obtain ⟨i, hi⟩ := withSeq_mem_of_mem rest p hp (seq + 1)
      exact ⟨i, List.mem_cons_of_mem _ hi⟩

theorem withSeq_length : ∀ (l : List (Nat × Nat)) (seq : Nat),
    (withSeq seq l).length = l.length
  | [], _ => rfl
  | hd :: rest, seq => by simp [withSeq, withSeq_length rest (seq + 1)]

/-- All fields of a chunk `Document` except the freshly generated `id`. -/
def eraseId (d : Document) : List Char × List (String × MVal) × Option String × List String :=
  (d.content, d.metadata, d.source, d.tags)

/-- A two-character parent document used as concrete input for C1. -/
def chunkCexDoc : Document :=
  { id := "d1", content := "ab".data, metadata := [], source := some "s", tags := [] }

/-- C1 counterexample: splitting the same two-character document twice with
`chunk_size = 1`, `chunk_overlap = 0` but distinct uuid4 draws yields segment
lists whose ids are the respective uuid4 values, so the id is not a function
of `(parent_document_id, sequence_number)` and the two runs differ. -/
theorem split_document_ids_differ_across_runs :
    (CharacterSplitter.split_document (fun _ => "uuid-run1") ⟨1, 0⟩ chunkCexDoc).map
        (List.map Document.id) = some ["uuid-run1", "uuid-run1"] ∧
    (CharacterSplitter.split_document (fun _ => "uuid-run2") ⟨1, 0⟩ chunkCexDoc).map
        (List.map Document.id) = some ["uuid-run2", "uuid-run2"] ∧
    CharacterSplitter.split_document (fun _ => "uuid-run1") ⟨1, 0⟩ chunkCexDoc ≠
      CharacterSplitter.split_document (fun _ => "uuid-run2") ⟨1, 0⟩ chunkCexDoc := by
  refine ⟨?_, ?_, ?_⟩ <;> decide

/-- C1 amended: re-splitting is deterministic in everything except the ids:
for any two uuid4 oracles, the two runs produce chunk lists that agree on
content, metadata (including the `original_doc_id` and `chunk_sequence`
lineage fields), source, and tags; only the freshly drawn ids may differ. -/
theorem split_document_deterministic_except_ids
    (s1 s2 : Nat → String) (cfg : CharacterSplitter.Cfg) (doc : Document) :
    (CharacterSplitter.split_document s1 cfg doc).map (List.map eraseId) =
      (CharacterSplitter.split_document s2 cfg doc).map (List.map eraseId) := by
  unfold CharacterSplitter.split_document
  split
  · rfl
  · cases hgo : CharacterSplitter.csGo doc.content.length cfg.chunk_size cfg.chunk_overlap
      doc.content.length 0 0 with
    | none => rfl
    | some l =>
      simp only [hgo, Option.map_some', Option.some.injEq, List.map_map]
      rfl

/-- A ten-character parent document used as concrete input for C3. -/
def splitterCexDoc : Document :=
  { id := "d2", content := "0123456789".data, metadata := [], source := none, tags := [] }

/-- C3 counterexample: `CharacterSplitter` with the valid configuration
`chunk_size = 10`, `chunk_overlap = 5` splits a ten-character document (whose
length is at most `chunk_size`) into two segments, not one. -/
theorem characterSplitter_not_single_segment :
    CharacterSplitter.init 10 5 = .ok ⟨10, 5⟩ ∧
    splitterCexDoc.content.length ≤ 10 ∧
    (CharacterSplitter.split_document (fun _ => "u") ⟨10, 5⟩ splitterCexDoc).map
        List.length = some 2 := by
  refine ⟨by rfl, by decide, by decide⟩

/-- C3 amended: for every valid configuration the emitted ranges of both
splitters cover `[0, len(content))` exactly; `DocumentChunker.split_text`
returns the whole text as a single chunk whenever `len(content) ≤ chunk_size`,
but `CharacterSplitter.split_document` emits a single segment exactly when
`len(content) ≤ chunk_size - chunk_overlap`. -/
theorem chunking_coverage (textLen size overlap : Nat) (hvk : overlap < size) :
    (∀ r, DocumentChunker.simpleChunkingRanges textLen size overlap = some r →
      ∀ x, x < textLen ↔ ∃ p ∈ r, p.1 ≤ x ∧ x < p.2) ∧
    (∀ t, CharacterSplitter.csGo textLen size overlap textLen 0 0 = some t →
      ∀ x, x < textLen ↔ ∃ q ∈ t, q.2.1 ≤ x ∧ x < q.2.2) ∧
    (∀ (w : Bool) (text : List Char), text.length ≤ size →
      DocumentChunker.split_text ⟨(size : Int), (overlap : Int), w⟩ text = some [text]) ∧
    (0 < textLen →
      ∀ t, CharacterSplitter.csGo textLen size overlap textLen 0 0 = some t →
        (t.length = 1 ↔ textLen ≤ size - overlap)) := by
  have hsc : DocumentChunker.simpleChunkingRanges textLen size overlap =
      some (DocumentChunker.ranges textLen size overlap 0) :=
    DocumentChunker.scGo_eq_ranges hvk textLen textLen 0 (by omega)
  have hcs : CharacterSplitter.csGo textLen size overlap textLen 0 0 =
      some (withSeq 0 (DocumentChunker.ranges textLen size overlap 0)) :=
    csGo_eq_ranges hvk textLen textLen 0 0 (by omega)
  refine ⟨?_, ?_, ?_, ?_⟩
  · intro r hr x
    rw [hsc] at hr
    cases hr
    constructor
    · intro hx
      exact DocumentChunker.ranges_coverage hvk 0 x (Nat.zero_le x) hx
    · rintro ⟨p, hmem, h1, h2⟩
      obtain ⟨-, -, h3⟩ := DocumentChunker.ranges_mem 0 p hmem
      omega
  · intro t ht x
    rw [hcs] at ht
    cases ht
    constructor
    · intro hx
      obtain ⟨p, hmem, h1, h2⟩ := DocumentChunker.ranges_coverage hvk 0 x (Nat.zero_le x) hx
      obtain ⟨i, hi⟩ := withSeq_mem_of_mem _ p hmem 0
      exact ⟨(i, p.1, p.2), hi, h1, h2⟩
    · rintro ⟨q, hmem, h1, h2⟩
      have hmem' := withSeq_mem _ 0 q hmem
      obtain ⟨-, -, h3⟩ := DocumentChunker.ranges_mem 0 (q.2.1, q.2.2) hmem'
      simp only at h3
      omega
  · intro w text hle
    unfold DocumentChunker.split_text
    have hc : (text.length : Int) ≤
        (({ chunk_size := (size : Int), chunk_overlap := (overlap : Int), warned := w } :
          DocumentChunker.Cfg).chunk_size) := by
      show (text.length : Int) ≤ (size : Int)
      exact_mod_cast hle
    rw [if_pos hc]
  · intro hL t ht
    rw [hcs] at ht
    cases ht
    rw [withSeq_length, DocumentChunker.ranges, dif_pos ⟨hL, hvk⟩]
    simp only [List.length_cons]
    constructor
    · intro h1
      have h0 : (DocumentChunker.ranges textLen size overlap (0 + (size - overlap))).length = 0 := by
        omega
      have := DocumentChunker.ranges_eq_nil_iff.mp (List.length_eq_zero.mp h0)
      omega
    · intro h1
      have hnil : DocumentChunker.ranges textLen size overlap (0 + (size - overlap)) = [] :=
        DocumentChunker.ranges_eq_nil_iff.mpr (by omega)
      rw [hnil]
      simp

/-- Witness for C3 (amended), exercising the single-chunk branch of
`split_text` at length 10 with `chunk_size = 10`, `chunk_overlap = 5`. -/
theorem chunking_coverage_witness :
    DocumentChunker.split_text ⟨(10 : Int), (5 : Int), false⟩ "0123456789".data =
      some ["0123456789".data] :=
  (chunking_coverage 10 10 5 (by decide)).2.2.1 false "0123456789".data (by decide)

/-- C5 counterexample: a `CharacterSplitter` configured with
`chunk_overlap = chunk_size = 10` does not construct successfully; it raises
`ValueError` instead of clamping the overlap to 0. -/
theorem characterSplitter_init_rejects_large_overlap :
    CharacterSplitter.init 10 10 =
      .error "chunk_overlap must be smaller than chunk_size." := by
  rfl

/-- C5 amended: when `chunk_overlap ≥ chunk_size`, `DocumentChunker.__init__`
clamps the overlap to 0 and records the warning, so its splitting proceeds as
a zero-overlap split, while `CharacterSplitter.__init__` instead fails with
`ValueError`. -/
theorem overlap_clamping_behavior (chunk_size chunk_overlap : Int)
    (h : chunk_overlap ≥ chunk_size) :
    DocumentChunker.init chunk_size chunk_overlap "simple" =
      .ok ⟨chunk_size, 0, true⟩ ∧
    (CharacterSplitter.init chunk_size chunk_overlap).isOk = false := by
  constructor
  · unfold DocumentChunker.init
    rw [if_pos (Or.inr rfl), if_pos h, decide_eq_true h]
  · unfold CharacterSplitter.init
    by_cases h0 : chunk_size ≤ 0
    · rw [if_pos h0]
      rfl
    · rw [if_neg h0, if_neg (by omega), if_pos h]
      rfl

/-- Witness for C5 (amended) at `chunk_size = 10`, `chunk_overlap = 10`. -/
theorem overlap_clamping_behavior_witness :
    DocumentChunker.init 10 10 "simple" = .ok ⟨10, 0, true⟩ ∧
    (CharacterSplitter.init 10 10).isOk = false :=
  overlap_clamping_behavior 10 10 (by decide)

/-- C6 counterexample: `DocumentChunker` accepts the non-positive
`chunk_size = 0` without raising (it merely clamps the overlap), and
`split_text` of an empty text returns one empty chunk, not an empty list. -/
theorem documentChunker_accepts_nonpositive_size :
    DocumentChunker.init 0 100 "simple" = .ok ⟨0, 0, true⟩ ∧
    DocumentChunker.split_text ⟨0, 0, true⟩ [] = some [[]] := by
  exact ⟨rfl, rfl⟩

/-- C6 amended: `CharacterSplitter` raises for non-positive `chunk_size` and
returns an empty segment list for empty content; `DocumentChunker.__init__`
accepts non-positive `chunk_size` without error, and its `split_text` on empty
content returns a single empty chunk; for valid configurations
(`0 < chunk_size`, `chunk_overlap < chunk_size`) both splits complete without
raising. -/
theorem splitter_failure_contract :
    (∀ chunk_size chunk_overlap : Int, chunk_size ≤ 0 →
      (CharacterSplitter.init chunk_size chunk_overlap).isOk = false) ∧
    (∀ (idSupply : Nat → String) (cfg : CharacterSplitter.Cfg) (doc : Document),
      doc.content = [] →
      CharacterSplitter.split_document idSupply cfg doc = some []) ∧
    (∀ chunk_size chunk_overlap : Int, chunk_size ≤ 0 →
      (DocumentChunker.init chunk_size chunk_overlap "simple").isOk = true) ∧
    (∀ cfg : DocumentChunker.Cfg, 0 ≤ cfg.chunk_size →
      DocumentChunker.split_text cfg [] = some [[]]) ∧
    (∀ (size overlap : Nat) (w : Bool) (text : List Char), overlap < size →
      (DocumentChunker.split_text ⟨(size : Int), (overlap : Int), w⟩ text).isSome = true) ∧
    (∀ (size overlap : Nat) (idSupply : Nat → String) (doc : Document), overlap < size →
      (CharacterSplitter.split_document idSupply ⟨size, overlap⟩ doc).isSome = true) := by
  refine ⟨?_, ?_, ?_, ?_, ?_, ?_⟩
  · intro sz ov h
    unfold CharacterSplitter.init
    rw [if_pos h]
    rfl
  · intro idSupply cfg doc h
    unfold CharacterSplitter.split_document
    rw [if_pos h]
  · intro sz ov h
    unfold DocumentChunker.init
    rw [if_pos (Or.inr rfl)]
    rfl
  · intro cfg h
    unfold DocumentChunker.split_text
    rw [if_pos (by simpa using h)]
  · intro size overlap w text h
    unfold DocumentChunker.split_text
    split
    · rfl
    · unfold DocumentChunker.simpleChunking DocumentChunker.simpleChunkingRanges
      simp only [Int.toNat_natCast, Option.isSome_map']
      exact DocumentChunker.scGo_isSome (by omega) overlap text.length text.length 0 (by omega)
  · intro size overlap idSupply doc h
    unfold CharacterSplitter.split_document
    split
    · rfl
    · rw [csGo_eq_ranges h doc.content.length doc.content.length 0 0 (by omega)]
      rfl

/-- Witness for C6 (amended), instantiating each conjunct at concrete
inputs. -/
theorem splitter_failure_contract_witness :
    (CharacterSplitter.init 0 7).isOk = false ∧
    CharacterSplitter.split_document (fun _ => "w") ⟨3, 1⟩ ⟨"e", [], [], none, []⟩ = some [] ∧
    (DocumentChunker.init (-2) 7 "simple").isOk = true ∧
    DocumentChunker.split_text ⟨5, 1, false⟩ [] = some [[]] ∧
    (DocumentChunker.split_text ⟨(3 : Int), (1 : Int), false⟩ "abcd".data).isSome = true ∧
    (CharacterSplitter.split_document (fun _ => "w") ⟨3, 1⟩ chunkCexDoc).isSome = true :=
  ⟨splitter_failure_contract.1 0 7 (by decide),
   splitter_failure_contract.2.1 (fun _ => "w") ⟨3, 1⟩ ⟨"e", [], [], none, []⟩ rfl,
   splitter_failure_contract.2.2.1 (-2) 7 (by decide),
   splitter_failure_contract.2.2.2.1 ⟨5, 1, false⟩ (by decide),
   splitter_failure_contract.2.2.2.2.1 3 1 false "abcd".data (by decide),
   splitter_failure_contract.2.2.2.2.2 3 1 (fun _ => "w") chunkCexDoc (by decide)⟩

/-- A Python value passed as document content: either `str` or `bytes`.
`pbytes s` stands for the byte string whose UTF-8 decoding is `s`; moving
between the two representations keeps the carrier string, which models the
fact that writing a `str` in text mode and reading the file back in binary
mode yields the UTF-8 bytes of the same characters. -/
inductive PyVal where
  | pstr : String → PyVal
  | pbytes : String → PyVal
  deriving Repr, DecidableEq

/-- The character payload of a value, i.e. what ends up in the file. -/
def PyVal.raw : PyVal → String
  | pstr s => s
  | pbytes s => s

namespace FileSystemDocumentStore

/-- Python `s.lower()` (ASCII case folding suffices for the ids used here). -/
def lowerStr (s : String) : List Char :=
  s.data.map Char.toLower

/-- Python `s.endswith(sfx)` over character lists. -/
def endsWithL (l sfx : List Char) : Bool :=
  sfx.isSuffixOf l

/-- Extension chosen by `_get_storage_path` (document_store.py lines 58-63):
`.pdf` for ids ending in `.pdf`, `.html` for `.htm`/`.html`, else `.bin`. -/
def extOf (document_id : String) : String :=
  if endsWithL (lowerStr document_id) ".pdf".data then ".pdf"
  else if endsWithL (lowerStr document_id) ".htm".data ∨
          endsWithL (lowerStr document_id) ".html".data then ".html"
  else ".bin"

/-- Scan for the `"://"` scheme separator of a URL, returning what follows. -/
def afterScheme : List Char → Option (List Char)
  | [] => none
  | ':' :: '/' :: '/' :: rest => some rest
  | _ :: rest => afterScheme rest

/-- The `(netloc, path)` pair of `urllib.parse.urlparse`, modelled for the id
shapes the store receives: absolute URLs `scheme://netloc/path` and bare
paths without a scheme (for which `urlparse` returns an empty netloc and the
whole id as path). -/
def urlparseNetlocPath (document_id : String) : List Char × List Char :=
  match afterScheme document_id.data with
  | some rest => (rest.takeWhile (· ≠ '/'), rest.dropWhile (· ≠ '/'))
  | none => ([], document_id.data)

/-- Bytes kept verbatim by `urllib.parse.quote(..., safe='')`:
ASCII letters, digits, and `_  .  -  ~`. -/
def isSafeByte (b : UInt8) : Bool :=
  decide ((65 ≤ b.toNat ∧ b.toNat ≤ 90) ∨ (97 ≤ b.toNat ∧ b.toNat ≤ 122) ∨
    (48 ≤ b.toNat ∧ b.toNat ≤ 57) ∨ b.toNat = 95 ∨ b.toNat = 46 ∨ b.toNat = 45 ∨
    b.toNat = 126)

/-- Upper-case hexadecimal digit. -/
def hexDigit (n : Nat) : Char :=
  if n < 10 then Char.ofNat (48 + n) else Char.ofNat (55 + n)

/-- Python `urllib.parse.quote(s, safe='')`: percent-encode every UTF-8 byte
outside the always-safe set. -/
def quoteAll (l : List Char) : List Char :=
  l.flatMap (fun c =>
    (String.utf8EncodeChar c).flatMap (fun b =>
      if isSafeByte b then [Char.ofNat b.toNat]
      else ['%', hexDigit (b.toNat / 16), hexDigit (b.toNat % 16)]))

/-- Python `s.strip('/')`. -/
def stripSlashes (l : List Char) : List Char :=
  ((l.dropWhile (· = '/')).reverse.dropWhile (· = '/')).reverse

/-- Python `s.replace(a, b)` for single characters. -/
def replaceChar (a b : Char) (l : List Char) : List Char :=
  l.map (fun c => if c = a then b else c)

/-- Embedding of `_get_storage_path` (lines 36-65), as a path relative to the
store's base directory: `netloc`-with-`:`-replaced, a slash, the
percent-quoted and truncated path part, and the extension. -/
def _get_storage_path (document_id : String) : String :=
  ((urlparseNetlocPath document_id).1 |> replaceChar ':' '_').asString ++ "/" ++
    ((replaceChar '%' '_' (quoteAll (stripSlashes (urlparseNetlocPath document_id).2))).take
      100).asString ++ extOf document_id

/-- Whether `retrieve_document` reads the file in binary mode (line 122): the
storage path always ends in the extension appended by `_get_storage_path`, so
`storage_path.suffix` is exactly `extOf document_id`. -/
def is_binary (document_id : String) : Bool :=
  decide (extOf document_id = ".bin" ∨ extOf document_id = ".pdf")

/-- The file-system state of the store: content files and `.meta.json`
sidecar files, both keyed by the content file path (content paths end in
`.bin`/`.pdf`/`.html` while sidecar paths end in `.meta.json`, so the two
families never collide and are kept as two maps). -/
structure StoreState where
  files : List (String × String)
  metas : List (String × List (String × Int))
  deriving Repr, DecidableEq

/-- The store as created over a fresh base directory. -/
def emptyStore : StoreState := ⟨[], []⟩

/-- Embedding of `save_document` (lines 67-100): writes the content bytes at
the storage path and, only when the metadata dict is truthy (non-`None` and
non-empty), dumps it to the sidecar file.  A falsy metadata argument leaves
any existing sidecar in place. -/
def save_document (st : StoreState) (document_id : String) (content : PyVal)
    (metadata : Option (List (String × Int))) : StoreState :=
  { files := setKey (_get_storage_path document_id) content.raw st.files
    metas :=
      match metadata with
      | some m => if m = [] then st.metas else setKey (_get_storage_path document_id) m st.metas
      | none => st.metas }

/-- Embedding of `retrieve_document` (lines 102-149): `none` is the
distinguished not-found result; otherwise the file is read in binary mode for
`.bin`/`.pdf` paths and in text mode for `.html` paths, and the sidecar
metadata is loaded when present. -/
def retrieve_document (st : StoreState) (document_id : String) :
    Option (PyVal × Option (List (String × Int))) :=
  match getKey? (_get_storage_path document_id) st.files with
  | none => none
  | some raw =>
    some (if is_binary document_id then PyVal.pbytes raw else PyVal.pstr raw,
      getKey? (_get_storage_path document_id) st.metas)

/-- Embedding of `delete_document` (lines 151-180): removes the content file
and the sidecar and returns `True` (also when the document was absent). -/
def delete_document (st : StoreState) (document_id : String) : Bool × StoreState :=
  (true,
   ⟨removeKey (_get_storage_path document_id) st.files,
    removeKey (_get_storage_path document_id) st.metas⟩)

/-- What `get` hands back for stored content: the same raw characters, tagged
`bytes` for ids with a binary extension and `str` otherwise, regardless of the
type that was saved. -/
def readBack (document_id : String) (content : PyVal) : PyVal :=
  if is_binary document_id then PyVal.pbytes content.raw else PyVal.pstr content.raw

end FileSystemDocumentStore

/-- C4 counterexample: on the claim's own instance,
`put("http://a.com/x", "hello", {"k": 1})` followed by `get` returns the
*bytes* `b"hello"` together with the metadata, not the string `"hello"`: the
id maps to a `.bin` path, which `retrieve_document` reads in binary mode even
though the content was saved as `str`. -/
theorem store_get_returns_bytes_not_str :
    FileSystemDocumentStore.retrieve_document
        (FileSystemDocumentStore.save_document FileSystemDocumentStore.emptyStore
          "http://a.com/x" (PyVal.pstr "hello") (some [("k", 1)]))
        "http://a.com/x"
      = some (PyVal.pbytes "hello", some [("k", 1)]) ∧
    PyVal.pbytes "hello" ≠ PyVal.pstr "hello" := by
  exact ⟨by decide, by decide⟩

/-- C4 amended: `put` followed by `get` returns the stored metadata (when it
is non-empty) and content carrying the same raw characters as what was
stored, but typed by the id's extension: `bytes` for `.bin`/`.pdf` paths and
`str` for `.html` paths, independently of the type saved; and `delete`
followed by `get` returns the not-found result. -/
theorem store_roundtrip (st : FileSystemDocumentStore.StoreState)
    (document_id : String) (content : PyVal) (m : List (String × Int)) (hm : m ≠ []) :
    FileSystemDocumentStore.retrieve_document
        (FileSystemDocumentStore.save_document st document_id content (some m)) document_id =
      some (FileSystemDocumentStore.readBack document_id content, some m) ∧
    (FileSystemDocumentStore.readBack document_id content).raw = content.raw ∧
    (FileSystemDocumentStore.is_binary document_id = false →
      FileSystemDocumentStore.readBack document_id (PyVal.pstr content.raw) =
        PyVal.pstr content.raw) ∧
    FileSystemDocumentStore.retrieve_document
        (FileSystemDocumentStore.delete_document
          (FileSystemDocumentStore.save_document st document_id content (some m))
          document_id).2 document_id = none := by
  refine ⟨?_, ?_, ?_, ?_⟩
  · unfold FileSystemDocumentStore.save_document FileSystemDocumentStore.retrieve_document
    simp only [if_neg hm, getKey?_setKey]
    unfold FileSystemDocumentStore.readBack
    cases FileSystemDocumentStore.is_binary document_id <;> simp
  · unfold FileSystemDocumentStore.readBack
    cases FileSystemDocumentStore.is_binary document_id <;> simp [PyVal.raw]
  · intro h
    unfold FileSystemDocumentStore.readBack
    rw [h]
    rfl
  · unfold FileSystemDocumentStore.save_document FileSystemDocumentStore.delete_document
      FileSystemDocumentStore.retrieve_document
    simp only [getKey?_removeKey]

/-- Witness for C4 (amended): a `.pdf` id with `bytes` content round-trips
exactly, and delete-then-get is not-found. -/
theorem store_roundtrip_witness :
    FileSystemDocumentStore.retrieve_document
        (FileSystemDocumentStore.save_document FileSystemDocumentStore.emptyStore
          "http://a.com/doc.pdf" (PyVal.pbytes "data") (some [("k", 1)]))
        "http://a.com/doc.pdf" =
      some (FileSystemDocumentStore.readBack "http://a.com/doc.pdf" (PyVal.pbytes "data"),
        some [("k", 1)]) ∧
    (FileSystemDocumentStore.readBack "http://a.com/doc.pdf" (PyVal.pbytes "data")).raw =
      (PyVal.pbytes "data").raw ∧
    (FileSystemDocumentStore.is_binary "http://a.com/doc.pdf" = false →
      FileSystemDocumentStore.readBack "http://a.com/doc.pdf"
          (PyVal.pstr (PyVal.pbytes "data").raw) = PyVal.pstr (PyVal.pbytes "data").raw) ∧
    FileSystemDocumentStore.retrieve_document
        (FileSystemDocumentStore.delete_document
          (FileSystemDocumentStore.save_document FileSystemDocumentStore.emptyStore
            "http://a.com/doc.pdf" (PyVal.pbytes "data") (some [("k", 1)]))
          "http://a.com/doc.pdf").2 "http://a.com/doc.pdf" = none :=
  store_roundtrip FileSystemDocumentStore.emptyStore "http://a.com/doc.pdf"
    (PyVal.pbytes "data") [("k", 1)] (by decide)

namespace VectorDatabaseManager

/-- A Python value occurring in a scraped-document dict.  Floats are
abstracted to an opaque integer token: no claim depends on float arithmetic,
only on the type-based classification `isinstance(v, (str, int, float,
bool))`. -/
inductive Value where
  | vStr : String → Value
  | vInt : Int → Value
  | vFloat : Int → Value
  | vBool : Bool → Value
  | vList : List Value → Value
  | vSet : List Value → Value
  | vNone : Value

/-- Python `isinstance(v, (str, int, float, bool))` (vector_database.py line
91). -/
def isScalar : Value → Bool
  | .vStr _ => true
  | .vInt _ => true
  | .vFloat _ => true
  | .vBool _ => true
  | _ => false

/-- Python truthiness of a value (`if not doc_id or not text`). -/
def truthyV : Value → Bool
  | .vStr s => !(s = "")
  | .vInt i => !(i = 0)
  | .vFloat f => !(f = 0)
  | .vBool b => b
  | .vList l => !l.isEmpty
  | .vSet l => !l.isEmpty
  | .vNone => false

/-- Python `str(v)` for the values used as ids.  Container rendering is
abstracted to a constant marker; no claim inspects it. -/
def pyStr : Value → String
  | .vStr s => s
  | .vInt i => toString i
  | .vFloat f => toString f
  | .vBool b => if b then "True" else "False"
  | .vList _ => "[...]"
  | .vSet _ => "set(...)"
  | .vNone => "None"

/-- Python string comparison `a <= b`: lexicographic on code points. -/
def strLe : List Char → List Char → Bool
  | [], _ => true
  | _ :: _, [] => false
  | a :: as, b :: bs =>
    if a.toNat < b.toNat then true
    else if b.toNat < a.toNat then false
    else strLe as bs

/-- Insertion into a `strLe`-sorted list of strings. -/
def insertStr (s : String) : List String → List String
  | [] => [s]
  | t :: ts => if strLe s.data t.data then s :: t :: ts else t :: insertStr s ts

/-- Python `sorted` on a list of strings (insertion sort). -/
def sortStrs : List String → List String
  | [] => []
  | s :: rest => insertStr s (sortStrs rest)

/-- Python `",".join(l)`. -/
def joinCommas : List String → String
  | [] => ""
  | [s] => s
  | s :: rest => s ++ "," ++ joinCommas rest

/-- The underlying strings of a tag container; `none` models the `TypeError`
that `sorted`/`join` raise when an element is not a string. -/
def asStrs : List Value → Option (List String)
  | [] => some []
  | .vStr s :: rest => (asStrs rest).map (fun l => s :: l)
  | _ => none

/-- Embedding of the per-document metadata preparation of `add_documents`
(lines 90-95): keep the scalar fields other than `text_key`/`id_key`, then
replace a list- or set-valued `tags` field by the comma-joined sorted tag
string. -/
def buildMetadata (doc : List (String × Value)) (text_key id_key : String) :
    Except String (List (String × Value)) :=
  match getKey? "tags" doc with
  | some (.vList l) =>
    match asStrs l with
    | some strs =>
      .ok (setKey "tags" (.vStr (joinCommas (sortStrs strs)))
        (doc.filter (fun kv => decide (kv.1 ≠ text_key ∧ kv.1 ≠ id_key) && isScalar kv.2)))
    | none => .error "TypeError: tags elements are not strings"
  | some (.vSet l) =>
    match asStrs l with
    | some strs =>
      .ok (setKey "tags" (.vStr (joinCommas (sortStrs strs)))
        (doc.filter (fun kv => decide (kv.1 ≠ text_key ∧ kv.1 ≠ id_key) && isScalar kv.2)))
    | none => .error "TypeError: tags elements are not strings"
  | _ => .ok (doc.filter (fun kv => decide (kv.1 ≠ text_key ∧ kv.1 ≠ id_key) && isScalar kv.2))

/-- One iteration of the accumulation loop of `add_documents` (lines 79-95):
`ok none` models the `continue` for a document with missing or falsy id/text,
`ok (some (str(id), text, metadata))` the appended row, and `error` an
uncaught `TypeError` from the tags conversion. -/
def processDoc1 (doc : List (String × Value)) (text_key id_key : String) :
    Except String (Option (String × Value × List (String × Value))) :=
  match getKey? id_key doc, getKey? text_key doc with
  | some dv, some tv =>
    if truthyV dv && truthyV tv then
      match buildMetadata doc text_key id_key with
      | .error e => .error e
      | .ok md => .ok (some (pyStr dv, tv, md))
    else
      .ok none
  | _, _ => .ok none

/-- The accumulation loop of `add_documents` (lines 75-99) over the batch: an
error aborts the whole call (nothing is upserted), exactly as an uncaught
exception would. -/
def processDocs (docs : List (List (String × Value))) (text_key id_key : String) :
    Except String (List String × List Value × List (List (String × Value))) :=
  match docs with
  | [] => .ok ([], [], [])
  | doc :: rest =>
    match processDoc1 doc text_key id_key with
    | .error e => .error e
    | .ok none => processDocs rest text_key id_key
    | .ok (some (i, t, md)) =>
      match processDocs rest text_key id_key with
      | .error e => .error e
      | .ok (ids, texts, mds) => .ok (i :: ids, t :: texts, md :: mds)

/-- Embedding of `add_documents` (lines 63-120), up to the backend `upsert`
call: the returned triple `(ids, texts, metadatas)` is exactly what is
forwarded to `collection.upsert` (when `ids` is empty the code returns before
upserting, and the forwarded batch is empty). -/
def add_documents (docs : List (List (String × Value))) (text_key id_key : String) :
    Except String (List String × List Value × List (List (String × Value))) :=
  processDocs docs text_key id_key

/-- The reply of `collection.query` (the four parallel result columns of the
single query embedding, i.e. the `[0]`-indexed rows of the ChromaDB reply).
Distances are abstracted like floats. -/
structure QueryReply where
  ids : List String
  distances : List Int
  metadatas : List (List (String × Value))
  documents : List String

/-- One formatted search result (lines 154-160). -/
structure SearchHit where
  id : String
  distance : Int
  metadata : List (String × Value)
  document : String

/-- The reformatting loop of `search` (lines 147-160): iterate over `ids` and
index the three other columns at the same position; a missing entry raises
`IndexError`, which the surrounding `except` converts into a
`RetrievalError`. -/
def formatResults : List String → List Int → List (List (String × Value)) → List String →
    Except String (List SearchHit)
  | [], _, _, _ => .ok []
  | i :: ids, d :: ds, m :: ms, doc :: docs =>
    (formatResults ids ds ms docs).map (fun rest => ⟨i, d, m, doc⟩ :: rest)
  | _ :: _, _, _, _ => .error "RetrievalError: IndexError while formatting results"

/-- Embedding of `search` (lines 122-166): embed the query text, forward
`n_results` to the backend `query` call unchanged — there is no validation of
`n_results` anywhere in the method — and reformat the reply. -/
def search (encode : String → List Int)
    (query : List Int → Int → Option (List (String × Value)) → QueryReply)
    (query_text : String) (n_results : Int)
    (filter_metadata : Option (List (String × Value))) :
    Except String (List SearchHit) :=
  formatResults (query (encode query_text) n_results filter_metadata).ids
    (query (encode query_text) n_results filter_metadata).distances
    (query (encode query_text) n_results filter_metadata).metadatas
    (query (encode query_text) n_results filter_metadata).documents

/-- Backends used for C7: two indexes that answer identically for positive
`n_results` but differently when queried with `n_results = 0`. -/
def backendA : List Int → Int → Option (List (String × Value)) → QueryReply := fun _ n _ =>
  if n ≤ 0 then ⟨["row-from-backend-A"], [0], [[]], ["dA"]⟩ else ⟨[], [], [], []⟩

/-- Second backend for C7, see `backendA`. -/
def backendB : List Int → Int → Option (List (String × Value)) → QueryReply := fun _ n _ =>
  if n ≤ 0 then ⟨["row-from-backend-B"], [1], [[]], ["dB"]⟩ else ⟨[], [], [], []⟩

theorem mem_setKey {β : Type} (k : String) (v : β) :
    ∀ (l : List (String × β)) (kv : String × β),
      kv ∈ setKey k v l → kv = (k, v) ∨ kv ∈ l
  | [], kv, h => by
    unfold setKey at h
    exact Or.inl (List.mem_singleton.mp h)
  | (k', v') :: rest, kv, h => by
    unfold setKey at h
    by_cases hk : k' = k
    · rw [if_pos hk] at h
      rcases List.mem_cons.mp h with rfl | h
      · exact Or.inl rfl
      · exact Or.inr (List.mem_cons_of_mem _ h)
    · rw [if_neg hk] at h
      rcases List.mem_cons.mp h with rfl | h
      · exact Or.inr (List.mem_cons_self _ _)
      · rcases mem_setKey k v rest kv h with h1 | h1
        · exact Or.inl h1
        · exact Or.inr (List.mem_cons_of_mem _ h1)

theorem isScalar_of_mem_filter {doc : List (String × Value)} {tk ik : String}
    {kv : String × Value}
    (h : kv ∈ doc.filter (fun kv => decide (kv.1 ≠ tk ∧ kv.1 ≠ ik) && isScalar kv.2)) :
    isScalar kv.2 = true := by
  have h2 := (List.mem_filter.mp h).2
  simp only [Bool.and_eq_true] at h2
  exact h2.2

theorem buildMetadata_scalar {doc : List (String × Value)} {tk ik : String}
    {md : List (String × Value)} (h : buildMetadata doc tk ik = .ok md) :
    ∀ kv ∈ md, isScalar kv.2 = true := by
  unfold buildMetadata at h
  split at h
  · split at h
    · cases h
      intro kv hkv
      rcases mem_setKey _ _ _ kv hkv with rfl | h'
      · rfl
      · exact isScalar_of_mem_filter h'
    · exact absurd h (by simp)
  · split at h
    · cases h
      intro kv hkv
      rcases mem_setKey _ _ _ kv hkv with rfl | h'
      · rfl
      · exact isScalar_of_mem_filter h'
    · exact absurd h (by simp)
  · cases h
    intro kv hkv
    exact isScalar_of_mem_filter hkv

theorem processDoc1_scalar {doc : List (String × Value)} {tk ik i : String}
    {t : Value} {md : List (String × Value)}
    (h : processDoc1 doc tk ik = .ok (some (i, t, md))) :
    ∀ kv ∈ md, isScalar kv.2 = true := by
  unfold processDoc1 at h
  cases hid : getKey? ik doc with
  | none =>
    rw [hid] at h
    simp at h
  | some dv =>
    rw [hid] at h
    cases htv : getKey? tk doc with
    | none =>
      rw [htv] at h
      simp at h
    | some tv =>
      rw [htv] at h
      dsimp only [] at h
      by_cases htr : (truthyV dv && truthyV tv) = true
      · rw [if_pos htr] at h
        cases hbm : buildMetadata doc tk ik with
        | error e =>
          rw [hbm] at h
          simp at h
        | ok md0 =>
          rw [hbm] at h
          simp only [Except.ok.injEq, Option.some.injEq, Prod.mk.injEq] at h
          obtain ⟨-, -, rfl⟩ := h
          exact buildMetadata_scalar hbm
      · rw [if_neg htr] at h
        simp at h

theorem processDocs_scalar :
    ∀ (docs : List (List (String × Value))) (tk ik : String)
      (out : List String × List Value × List (List (String × Value))),
      processDocs docs tk ik = .ok out →
      ∀ md ∈ out.2.2, ∀ kv ∈ md, isScalar kv.2 = true := by
  intro docs
  induction docs with
  | nil =>
    intro tk ik out h md hmd
    unfold processDocs at h
    cases h
    simp at hmd
  | cons doc rest ih =>
    intro tk ik out h md hmd kv hkv
    unfold processDocs at h
    cases hp : processDoc1 doc tk ik with
    | error e =>
      rw [hp] at h
      simp at h
    | ok row =>
      rw [hp] at h
      cases row with
      | none =>
        exact ih tk ik out h md hmd kv hkv
      | some itm =>
        obtain ⟨i, t, md1⟩ := itm
        cases hrec : processDocs rest tk ik with
        | error e =>
          rw [hrec] at h
          simp at h
        | ok trip =>
          obtain ⟨ids, texts, mds⟩ := trip
          rw [hrec] at h
          simp only [Except.ok.injEq] at h
          subst h
          rcases List.mem_cons.mp hmd with rfl | hmd'
          · exact processDoc1_scalar hp kv hkv
          · exact ih tk ik (ids, texts, mds) hrec md hmd' kv hkv

theorem formatResults_ok :
    ∀ (ids : List String) (ds : List Int) (ms : List (List (String × Value)))
      (docs : List String),
      ids.length ≤ ds.length → ids.length ≤ ms.length → ids.length ≤ docs.length →
      ∃ hits, formatResults ids ds ms docs = .ok hits ∧
        hits.map SearchHit.id = ids ∧ hits.length = ids.length := by
  intro ids
  induction ids with
  | nil =>
    intro ds ms docs _ _ _
    exact ⟨[], rfl, rfl, rfl⟩
  | cons i rest ih =>
    intro ds ms docs h1 h2 h3
    match ds, ms, docs with
    | [], _, _ => simp at h1
    | _ :: _, [], _ => simp at h2
    | _ :: _, _ :: _, [] => simp at h3
    | d :: ds, m :: ms, doc :: docs =>
      obtain ⟨hits, he, hid, hlen⟩ := ih ds ms docs
        (by simp only [List.length_cons] at h1; omega)
        (by simp only [List.length_cons] at h2; omega)
        (by simp only [List.length_cons] at h3; omega)
      refine ⟨⟨i, d, m, doc⟩ :: hits, ?_, ?_, ?_⟩
      · unfold formatResults
        rw [he]
        rfl
      · simp [hid]
      · simp [hlen]

end VectorDatabaseManager

/-- C7 counterexample: calling `search` with `n_results = 0` is not rejected
as an input error; the value 0 is forwarded to the backend `query` and the
formatted backend reply is returned, as shown by two backends that differ only
at `n_results = 0` producing different `search` outputs. -/
theorem search_forwards_nonpositive_n :
    VectorDatabaseManager.search (fun _ => [0]) VectorDatabaseManager.backendA "q" 0 none =
      .ok [⟨"row-from-backend-A", 0, [], "dA"⟩] ∧
    VectorDatabaseManager.search (fun _ => [0]) VectorDatabaseManager.backendB "q" 0 none =
      .ok [⟨"row-from-backend-B", 1, [], "dB"⟩] ∧
    VectorDatabaseManager.search (fun _ => [0]) VectorDatabaseManager.backendA "q" 0 none ≠
      VectorDatabaseManager.search (fun _ => [0]) VectorDatabaseManager.backendB "q" 0 none := by
  refine ⟨rfl, rfl, ?_⟩
  intro h
  rw [show VectorDatabaseManager.search (fun _ => [0]) VectorDatabaseManager.backendA "q" 0 none =
        .ok [⟨"row-from-backend-A", 0, [], "dA"⟩] from rfl,
      show VectorDatabaseManager.search (fun _ => [0]) VectorDatabaseManager.backendB "q" 0 none =
        .ok [⟨"row-from-backend-B", 1, [], "dB"⟩] from rfl] at h
  injection h with h1
  injection h1 with h2 h3
  have h4 := congrArg VectorDatabaseManager.SearchHit.id h2
  exact absurd h4 (by decide)

/-- C7 amended: `search` performs no validation of `n_results`: a non-positive
value is forwarded unchanged to the backend query, and (for a well-formed
backend reply) the call completes normally, returning exactly the rows the
backend produced for that value rather than an input error. -/
theorem search_no_validation (encode : String → List Int)
    (query : List Int → Int → Option (List (String × VectorDatabaseManager.Value)) →
      VectorDatabaseManager.QueryReply)
    (query_text : String) (n_results : Int)
    (filt : Option (List (String × VectorDatabaseManager.Value)))
    (_hn : n_results ≤ 0)
    (h1 : (query (encode query_text) n_results filt).ids.length ≤
      (query (encode query_text) n_results filt).distances.length)
    (h2 : (query (encode query_text) n_results filt).ids.length ≤
      (query (encode query_text) n_results filt).metadatas.length)
    (h3 : (query (encode query_text) n_results filt).ids.length ≤
      (query (encode query_text) n_results filt).documents.length) :
    ∃ hits, VectorDatabaseManager.search encode query query_text n_results filt = .ok hits ∧
      hits.map VectorDatabaseManager.SearchHit.id =
        (query (encode query_text) n_results filt).ids ∧
      hits.length = (query (encode query_text) n_results filt).ids.length := by
  unfold VectorDatabaseManager.search
  exact VectorDatabaseManager.formatResults_ok _ _ _ _ h1 h2 h3

/-- Witness for C7 (amended) with `backendA` at `n_results = 0`. -/
theorem search_no_validation_witness :
    ∃ hits, VectorDatabaseManager.search (fun _ => [0]) VectorDatabaseManager.backendA
        "q" 0 none = .ok hits ∧
      hits.map VectorDatabaseManager.SearchHit.id =
        (VectorDatabaseManager.backendA [0] 0 none).ids ∧
      hits.length = (VectorDatabaseManager.backendA [0] 0 none).ids.length :=
  search_no_validation (fun _ => [0]) VectorDatabaseManager.backendA "q" 0 none
    (by decide) (by decide) (by decide) (by decide)

/-- C10: for every batch accepted by `add_documents`, every metadata map in
the triple forwarded to the backend `upsert` contains only scalar values —
non-scalar fields are dropped by the comprehension and a list- or set-valued
`tags` field has been replaced by the comma-joined string of its sorted
elements. -/
theorem add_documents_metadata_scalar
    (docs : List (List (String × VectorDatabaseManager.Value))) (text_key id_key : String)
    (out : List String × List VectorDatabaseManager.Value ×
      List (List (String × VectorDatabaseManager.Value)))
    (h : VectorDatabaseManager.add_documents docs text_key id_key = .ok out) :
    ∀ md ∈ out.2.2, ∀ kv ∈ md, VectorDatabaseManager.isScalar kv.2 = true :=
  VectorDatabaseManager.processDocs_scalar docs text_key id_key out h

/-- Witness for C10 on a one-document batch whose `tags` list `["b", "a"]`
is flattened to the scalar string `"a,b"`. -/
theorem add_documents_metadata_scalar_witness :
    VectorDatabaseManager.isScalar (VectorDatabaseManager.Value.vStr "a,b") = true :=
  add_documents_metadata_scalar
    [[("url", .vStr "http://a.com/x"), ("cleaned_text", .vStr "hello"),
      ("author", .vStr "Ann"), ("score", .vInt 3),
      ("tags", .vList [.vStr "b", .vStr "a"]), ("blob", .vList [.vInt 1])]]
    "cleaned_text" "url"
    (["http://a.com/x"], [.vStr "hello"],
      [[("author", .vStr "Ann"), ("score", .vInt 3), ("tags", .vStr "a,b")]])
    rfl
    [("author", .vStr "Ann"), ("score", .vInt 3), ("tags", .vStr "a,b")]
    (List.mem_singleton.mpr rfl)
    ("tags", .vStr "a,b")
    (by simp)
